import Mathlib

/-!
Verification of the `imagedownloader` / `imgdl` bulk image downloader.

The development shallowly embeds the two near-duplicate downloader
implementations (`src/imagedownloader/downloader.py` and
`src/imgdl/downloader.py`): the SHA-1 based path resolver, the PIL image
canonicalization (`convert_image`), the per-URL download task
(`download_image`), the batch collection loop (`__call__`) and the proxy
configuration normalization.  External collaborators (the HTTP transport,
the image decoder, the filesystem write and the random sources) are passed
in as explicit oracles; PIL primitives are modelled by executable pixel
functions; machine words are `Nat` masked to 32 bits.
-/

set_option maxRecDepth 4000

/-! ### SHA-1 (as used by `hashlib.sha1(...).hexdigest()` in `file_path` / `thumb_path`) -/

def mask32 : Nat := 0xFFFFFFFF

/-- 32-bit left rotation. -/
def rotl (n x : Nat) : Nat := ((x <<< n) ||| (x >>> (32 - n))) &&& mask32

/-- Big-endian 4-byte encoding of a 32-bit word. -/
def beBytes4 (n : Nat) : List Nat :=
  [(n >>> 24) &&& 255, (n >>> 16) &&& 255, (n >>> 8) &&& 255, n &&& 255]

/-- Big-endian 8-byte encoding of the 64-bit message bit length. -/
def beBytes8 (n : Nat) : List Nat :=
  [(n >>> 56) &&& 255, (n >>> 48) &&& 255, (n >>> 40) &&& 255, (n >>> 32) &&& 255,
   (n >>> 24) &&& 255, (n >>> 16) &&& 255, (n >>> 8) &&& 255, n &&& 255]

/-- SHA-1 padding: append `0x80`, zeros up to 56 mod 64, then the bit length. -/
def sha1Pad (msg : List Nat) : List Nat :=
  let len := msg.length
  let z := (120 - ((len + 1) % 64)) % 64
  msg ++ [0x80] ++ List.replicate z 0 ++ beBytes8 (len * 8)

/-- Group bytes into big-endian 32-bit words. -/
def toWords : List Nat → List Nat
  | a :: b :: c :: d :: rest => ((a <<< 24) ||| (b <<< 16) ||| (c <<< 8) ||| d) :: toWords rest
  | _ => []

/-- One step of the SHA-1 message-schedule extension. -/
def extendLoop : Nat → Array Nat → Array Nat
  | 0, acc => acc
  | n + 1, acc =>
    let m := acc.size
    extendLoop n (acc.push (rotl 1
      ((acc.getD (m - 3) 0) ^^^ (acc.getD (m - 8) 0) ^^^
       (acc.getD (m - 14) 0) ^^^ (acc.getD (m - 16) 0))))

/-- Extend 16 words to the 80-word SHA-1 schedule. -/
def extendWords (ws : List Nat) : List Nat := (extendLoop 64 ws.toArray).toList

/-- The SHA-1 round function. -/
def sha1F (i b c d : Nat) : Nat :=
  if i < 20 then (b &&& c) ||| ((b ^^^ mask32) &&& d)
  else if i < 40 then b ^^^ c ^^^ d
  else if i < 60 then (b &&& c) ||| (b &&& d) ||| (c &&& d)
  else b ^^^ c ^^^ d

/-- The SHA-1 round constants. -/
def sha1K (i : Nat) : Nat :=
  if i < 20 then 0x5A827999
  else if i < 40 then 0x6ED9EBA1
  else if i < 60 then 0x8F1BBCDC
  else 0xCA62C1D6

/-- One SHA-1 round on the five-word state, fed the round index and word. -/
def sha1Round (st : Nat × Nat × Nat × Nat × Nat) (iw : Nat × Nat) :
    Nat × Nat × Nat × Nat × Nat :=
  let (a, b, c, d, e) := st
  let temp := (rotl 5 a + sha1F iw.1 b c d + e + sha1K iw.1 + iw.2) &&& mask32
  (temp, a, rotl 30 b, c, d)

/-- Compress one 64-byte chunk into the running state. -/
def sha1Compress (hs : Nat × Nat × Nat × Nat × Nat) (chunk : List Nat) :
    Nat × Nat × Nat × Nat × Nat :=
  let ws := extendWords (toWords chunk)
  let st := ws.enum.foldl sha1Round hs
  (((hs.1 + st.1) &&& mask32), ((hs.2.1 + st.2.1) &&& mask32),
   ((hs.2.2.1 + st.2.2.1) &&& mask32), ((hs.2.2.2.1 + st.2.2.2.1) &&& mask32),
   ((hs.2.2.2.2 + st.2.2.2.2) &&& mask32))

/-- Fold the compression function over all 64-byte chunks; the fuel argument
only bounds the recursion (each step consumes 64 bytes, so `bytes.length`
is always enough fuel). -/
def sha1BlocksAux (hs : Nat × Nat × Nat × Nat × Nat) :
    Nat → List Nat → Nat × Nat × Nat × Nat × Nat
  | _, [] => hs
  | 0, _ => hs
  | fuel + 1, bytes =>
    sha1BlocksAux (sha1Compress hs (bytes.take 64)) fuel (bytes.drop 64)

/-- Fold the compression function over all 64-byte chunks. -/
def sha1Blocks (hs : Nat × Nat × Nat × Nat × Nat) (bytes : List Nat) :
    Nat × Nat × Nat × Nat × Nat :=
  sha1BlocksAux hs bytes.length bytes

/-- SHA-1 of a byte list, as the 20-byte digest. -/
def sha1 (msg : List Nat) : List Nat :=
  let st := sha1Blocks (0x67452301, 0xEFCDAB89, 0x98BADCFE, 0x10325476, 0xC3D2E1F0)
    (sha1Pad msg)
  beBytes4 st.1 ++ beBytes4 st.2.1 ++ beBytes4 st.2.2.1 ++
    beBytes4 st.2.2.2.1 ++ beBytes4 st.2.2.2.2

/-- One lowercase hex nibble. -/
def hexChar (n : Nat) : Char := if n < 10 then Char.ofNat (48 + n) else Char.ofNat (87 + n)

/-- Two lowercase hex characters of a byte. -/
def byteHex (b : Nat) : List Char := [hexChar (b / 16), hexChar (b % 16)]

/-- Lowercase hex string of a digest, as Python's `.hexdigest()`. -/
def hexdigest (bytes : List Nat) : String := String.mk (bytes.map byteHex).flatten

/-- UTF-8 encoding of one code point. -/
def utf8Char (c : Nat) : List Nat :=
  if c < 0x80 then [c]
  else if c < 0x800 then [0xC0 ||| (c >>> 6), 0x80 ||| (c &&& 0x3F)]
  else if c < 0x10000 then
    [0xE0 ||| (c >>> 12), 0x80 ||| ((c >>> 6) &&& 0x3F), 0x80 ||| (c &&& 0x3F)]
  else
    [0xF0 ||| (c >>> 18), 0x80 ||| ((c >>> 12) &&& 0x3F), 0x80 ||| ((c >>> 6) &&& 0x3F),
     0x80 ||| (c &&& 0x3F)]

/-- Modelled from the spec: the repository's `utils.to_bytes` helper lives in
`utils.py`, which is not under `src/`; the spec states that paths hash "the
UTF-8 bytes of url", so the helper is modelled as standard UTF-8 encoding. -/
def to_bytes (s : String) : List Nat := (s.data.map (fun c => utf8Char c.toNat)).flatten

/-! ### PathResolver: `ImageDownloader.file_path` / `thumb_path` -/

/-- `ImageDownloader.file_path`: `Path(store_path, sha1(to_bytes(url)).hexdigest() + ".jpg")`. -/
def file_path (store_path url : String) : String :=
  store_path ++ "/" ++ hexdigest (sha1 (to_bytes url)) ++ ".jpg"

/-- `ImageDownloader.thumb_path`:
`Path(store_path, "thumbs", thumb_id, sha1(to_bytes(url)).hexdigest() + ".jpg")`. -/
def thumb_path (store_path url thumb_id : String) : String :=
  store_path ++ "/thumbs/" ++ thumb_id ++ "/" ++ hexdigest (sha1 (to_bytes url)) ++ ".jpg"

/-! ### PIL collaborator model

Images are modelled as a mode/format tag plus a row-major list of RGBA
quadruples (for palette images the list holds the palette-resolved RGBA
values).  The PIL primitives used by `convert_image` — `Image.new`,
`Image.paste` with an image mask, `Image.convert`, `Image.copy`,
`Image.thumbnail` and `Image.save(..., 'JPEG')` — are modelled as
executable functions on this representation. -/

structure PILImage where
  format : Option String
  mode : String
  width : Nat
  height : Nat
  px : List (Nat × Nat × Nat × Nat)
deriving DecidableEq

instance : Inhabited PILImage := ⟨⟨none, "RGB", 0, 0, []⟩⟩

/-- An in-memory encoded image buffer (the `BytesIO` result of `img.save`). -/
structure EncodedImage where
  fmt : String
  mode : String
  width : Nat
  height : Nat
  rgb : List (Nat × Nat × Nat)
deriving DecidableEq

/-- `Image.new(mode, (w, h), color)` with an opaque color (PIL fills the
alpha band with 255 when a 3-tuple is given for an RGBA image). -/
def pilNew (mode : String) (w h : Nat) (color : Nat × Nat × Nat × Nat) : PILImage :=
  ⟨none, mode, w, h, List.replicate (w * h) color⟩

/-- PIL's `MULDIV255` rounding multiply used by alpha blending. -/
def muldiv255 (a b : Nat) : Nat := ((a * b + 128) * 257) >>> 16

/-- Blend one channel of source over destination under mask value `m`. -/
def blendChan (m s d : Nat) : Nat := muldiv255 s m + muldiv255 d (255 - m)

/-- Per-pixel paste of `s` over `d` under the mask pixel's alpha. -/
def blendPx (mp sp dp : Nat × Nat × Nat × Nat) : Nat × Nat × Nat × Nat :=
  (blendChan mp.2.2.2 sp.1 dp.1, blendChan mp.2.2.2 sp.2.1 dp.2.1,
   blendChan mp.2.2.2 sp.2.2.1 dp.2.2.1, blendChan mp.2.2.2 sp.2.2.2 dp.2.2.2)

/-- `bg.paste(img, mask)`: alpha-composite `img` over `bg` using the mask's
alpha band; mutates (the value of) `bg` in place, so the caller stores the
result back at `bg`'s reference. -/
def pilPaste (bg img mask : PILImage) : PILImage :=
  { bg with px := (mask.px.zip (img.px.zip bg.px)).map (fun t => blendPx t.1 t.2.1 t.2.2) }

/-- `img.convert(mode)`: returns a new image; converting to `"RGB"` drops the
alpha band, converting a palette image to `"RGBA"` resolves the palette
(already resolved in this representation).  The new image has no format tag. -/
def pilConvert (img : PILImage) (m : String) : PILImage :=
  if m = "RGB" then
    ⟨none, "RGB", img.width, img.height, img.px.map (fun p => (p.1, p.2.1, p.2.2.1, 255))⟩
  else
    ⟨none, m, img.width, img.height, img.px⟩

/-- Modelled from the spec: the bounding-box size computed by the PIL
`Image.thumbnail` collaborator — shrink-to-fit preserving aspect ratio,
rounding down but never below one pixel, and never enlarging an image that
already fits in the box. -/
def thumbnailSize (w h x y : Nat) : Nat × Nat :=
  if w ≤ x ∧ h ≤ y then (w, h)
  else if x * h ≤ y * w then (x, max (h * x / w) 1)
  else (max (w * y / h) 1, y)

/-- Nearest-neighbour pixel resampling to `nw × nh` (the claims under proof
concern dimensions, not resampled pixel values, so the area-averaging
`ANTIALIAS` filter is modelled by an arbitrary concrete resampler). -/
def pilResizePx (img : PILImage) (nw nh : Nat) : List (Nat × Nat × Nat × Nat) :=
  (List.range (nw * nh)).map (fun k =>
    img.px.getD ((k / nw) * img.height / nh * img.width + (k % nw) * img.width / nw)
      (0, 0, 0, 255))

/-- `img.thumbnail(size, Image.ANTIALIAS)`: in-place shrink-to-fit; a no-op
when the computed size equals the current size. -/
def pilThumbnail (img : PILImage) (sz : Nat × Nat) : PILImage :=
  let ts := thumbnailSize img.width img.height sz.1 sz.2
  if ts.1 = img.width ∧ ts.2 = img.height then img
  else { img with width := ts.1, height := ts.2, px := pilResizePx img ts.1 ts.2 }

/-- `img.save(buf, 'JPEG')`: encode into an in-memory buffer; JPEG carries
three channels. -/
def pilSaveJPEG (img : PILImage) : EncodedImage :=
  ⟨"JPEG", img.mode, img.width, img.height, img.px.map (fun p => (p.1, p.2.1, p.2.2.1))⟩

/-- Decoding a stored canonical JPEG back into a `PILImage` (`Image.open` on
a file this program wrote). -/
def jpegOpen (e : EncodedImage) : PILImage :=
  ⟨some e.fmt, e.mode, e.width, e.height, e.rgb.map (fun p => (p.1, p.2.1, p.2.2, 255))⟩

/-! ### Object heap

Python `Image` objects are mutable; `convert_image` must leave the caller's
object untouched (it mutates only the fresh `background` and the copy it
takes before `thumbnail`).  To make that a provable statement the images
live on an explicit heap of objects addressed by allocation index. -/

abbrev Heap := List PILImage

/-- Allocate a fresh object, returning the heap and the new reference. -/
def halloc (h : Heap) (i : PILImage) : Heap × Nat := (h ++ [i], h.length)

/-- Read an object (out-of-range references read the default image). -/
def hget (h : Heap) (r : Nat) : PILImage := h.getD r default

/-- Mutate the object stored at `r` in place. -/
def hset (h : Heap) (r : Nat) (i : PILImage) : Heap := h.set r i

/-! ### `ImageDownloader.convert_image` (identical in both implementations) -/

/-- `ImageDownloader.convert_image(img, size=None)` on the object heap:
canonicalize color to RGB (compositing PNG/RGBA and palette images onto an
opaque white background), optionally shrink a copy to the bounding box, and
encode the result as JPEG into a fresh buffer.  Returns the heap, the
reference held by the local `img` variable at return, and the buffer. -/
def convert_image (h : Heap) (r : Nat) (size : Option (Nat × Nat)) :
    Heap × Nat × EncodedImage :=
  let img0 := hget h r
  let s1 :=
    if img0.format = some "PNG" ∧ img0.mode = "RGBA" then
      let a1 := halloc h (pilNew "RGBA" img0.width img0.height (255, 255, 255, 255))
      let h2 := hset a1.1 a1.2 (pilPaste (hget a1.1 a1.2) (hget a1.1 r) (hget a1.1 r))
      halloc h2 (pilConvert (hget h2 a1.2) "RGB")
    else if img0.mode = "P" then
      let aA := halloc h (pilConvert img0 "RGBA")
      let a1 := halloc aA.1 (pilNew "RGBA" (hget aA.1 aA.2).width (hget aA.1 aA.2).height
        (255, 255, 255, 255))
      let h2 := hset a1.1 a1.2 (pilPaste (hget a1.1 a1.2) (hget a1.1 aA.2) (hget a1.1 aA.2))
      halloc h2 (pilConvert (hget h2 a1.2) "RGB")
    else if img0.mode ≠ "RGB" then
      halloc h (pilConvert img0 "RGB")
    else (h, r)
  let s2 :=
    match size with
    | some sz =>
      let ac := halloc s1.1 (hget s1.1 s1.2)
      let h2 := hset ac.1 ac.2 (pilThumbnail (hget ac.1 ac.2) sz)
      (h2, ac.2)
    | none => (s1.1, s1.2)
  (s2.1, s2.2, pilSaveJPEG (hget s2.1 s2.2))

/-- The color canonicalization as the spec words it: a PNG-format RGBA image
is composited onto an opaque white background before dropping alpha; a
palette-indexed image is first expanded to RGBA and then composited onto
white; any other non-RGB mode is converted directly to RGB; an RGB image is
left as is. -/
def canonicalize_spec (img : PILImage) : PILImage :=
  if img.format = some "PNG" ∧ img.mode = "RGBA" then
    pilConvert (pilPaste (pilNew "RGBA" img.width img.height (255, 255, 255, 255)) img img)
      "RGB"
  else if img.mode = "P" then
    let e := pilConvert img "RGBA"
    pilConvert (pilPaste (pilNew "RGBA" e.width e.height (255, 255, 255, 255)) e e) "RGB"
  else if img.mode ≠ "RGB" then
    pilConvert img "RGB"
  else img

/-- Pure view of `convert_image`: the resulting image value and buffer when
run on a heap holding only the input image. -/
def convertImagePure (img : PILImage) (size : Option (Nat × Nat)) :
    PILImage × EncodedImage :=
  let out := convert_image [img] 0 size
  (hget out.1 out.2.1, out.2.2)

/-! ### `ImageDownloader.download_image` (the per-URL task)

The external collaborators are explicit oracles: `fetchO` is
`requests.get(url, ...).content` (raising = `Except.error`), `decodeO` is
`Image.open` on raw downloaded bytes, and `writeOk` tells whether the
filesystem accepts a write at a path (`_persist_file` raising on denial).
The filesystem is a finite-map from paths to file contents; the
rate-limiting `sleep` and the network fetch are recorded as trace events. -/

inductive DLErr
  | fetchErr
  | decodeErr
  | persistErr
  | fileMissing
deriving DecidableEq

inductive Ev
  | fetch (url : String)
  | sleep
  | write (path : String)
  | thumbTry (thumbId : String)
deriving DecidableEq

/-- A stored file: raw bytes from elsewhere, or a buffer this program wrote. -/
inductive FileData
  | raw (bytes : List Nat)
  | enc (e : EncodedImage)
deriving DecidableEq

deriving instance DecidableEq for Except

abbrev Fs := String → Option FileData

/-- `Path.exists()`. -/
def fsExists (fs : Fs) (p : String) : Bool := (fs p).isSome

/-- Write (create or truncate-and-replace) a file. -/
def fsWrite (fs : Fs) (p : String) (d : FileData) : Fs :=
  fun q => if q = p then some d else fs q

/-- `ImageDownloader._persist_file(path, buf)`: open for writing and write the
whole buffer; the environment (`writeOk`) decides whether the write succeeds. -/
def persistFile (writeOk : String → Bool) (fs : Fs) (path : String) (buf : EncodedImage) :
    Except DLErr Fs :=
  if writeOk path then .ok (fsWrite fs path (.enc buf)) else .error .persistErr

/-- `Image.open` on a stored file: raw outside bytes go through the decode
oracle, files this program wrote decode as the canonical JPEG. -/
def openFile (decodeO : List Nat → Except DLErr PILImage) :
    FileData → Except DLErr PILImage
  | .raw bytes => decodeO bytes
  | .enc e => .ok (jpegOpen e)

structure DLConfig where
  store_path : String
  thumbs_size : List (String × Nat × Nat)

/-- The thumbnail loop at the end of `download_image`: for each configured
spec, if its path is missing or `force` is set, lazily obtain the original
(`orig_img = orig_img or Image.open(str(path))`), convert to the spec's
bounding box and persist.  There is no exception handling inside the loop:
the first failure aborts it. -/
def downloadThumbs (decodeO : List Nat → Except DLErr PILImage) (writeOk : String → Bool)
    (cfg : DLConfig) (url : String) (force : Bool) (path : String) :
    List (String × Nat × Nat) → Fs → Option PILImage → Fs × List Ev × Except DLErr Unit
  | [], fs, _ => (fs, [], .ok ())
  | (tid, tw, th) :: rest, fs, origImg =>
    let tp := thumb_path cfg.store_path url tid
    if ¬ fsExists fs tp ∨ force then
      match (match origImg with
             | some i => Except.ok i
             | none =>
               match fs path with
               | some fd => openFile decodeO fd
               | none => Except.error DLErr.fileMissing) with
      | .error e => (fs, [.thumbTry tid], .error e)
      | .ok oi =>
        let conv := convertImagePure oi (some (tw, th))
        match persistFile writeOk fs tp conv.2 with
        | .error e => (fs, [.thumbTry tid], .error e)
        | .ok fs1 =>
          let out := downloadThumbs decodeO writeOk cfg url force path rest fs1 (some oi)
          (out.1, .thumbTry tid :: .write tp :: out.2.1, out.2.2)
    else
      downloadThumbs decodeO writeOk cfg url force path rest fs origImg

/-- `ImageDownloader.download_image(url, force)` from
`src/imagedownloader/downloader.py`: skip the fetch when the stored path
exists and `force` is unset, otherwise fetch, decode, convert, persist and
sleep; then run the thumbnail loop.  Returns the filesystem, the event
trace, and the returned path or the propagated exception. -/
def download_image (fetchO : String → Except DLErr (List Nat))
    (decodeO : List Nat → Except DLErr PILImage) (writeOk : String → Bool)
    (cfg : DLConfig) (fs : Fs) (url : String) (force : Bool) :
    Fs × List Ev × Except DLErr String :=
  let path := file_path cfg.store_path url
  if ¬ fsExists fs path ∨ force then
    match fetchO url with
    | .error e => (fs, [.fetch url], .error e)
    | .ok bytes =>
      match decodeO bytes with
      | .error e => (fs, [.fetch url], .error e)
      | .ok origImg =>
        let conv := convertImagePure origImg none
        match persistFile writeOk fs path conv.2 with
        | .error e => (fs, [.fetch url], .error e)
        | .ok fs1 =>
          let out := downloadThumbs decodeO writeOk cfg url force path cfg.thumbs_size fs1
            (some origImg)
          (out.1, .fetch url :: .write path :: .sleep :: out.2.1,
           out.2.2.map (fun _ => path))
  else
    let out := downloadThumbs decodeO writeOk cfg url force path cfg.thumbs_size fs none
    (out.1, out.2.1, out.2.2.map (fun _ => path))

/-- Whether the original fetch-decode-persist sequence succeeds under the
given oracles. -/
def origStepOk (fetchO : String → Except DLErr (List Nat))
    (decodeO : List Nat → Except DLErr PILImage) (writeOk : String → Bool)
    (url path : String) : Bool :=
  match fetchO url with
  | .error _ => false
  | .ok bytes =>
    match decodeO bytes with
    | .error _ => false
    | .ok _ => writeOk path

/-! ### `ImageDownloader.__call__` (the batch boundary) -/

/-- The result dictionary built by the batch loop, as a finite map: `none`
means the key is absent, `some v` that the key maps to `v` (where the stored
`v` is itself `none` for a url whose future raised). -/
def dictInsert (d : String → Option (Option String)) (k : String) (v : Option String) :
    String → Option (Option String) :=
  fun q => if q = k then some v else d q

/-- The value assigned for one completed future: the stored path, or the
`None` absence marker when the future raised. -/
def futureOutcome (r : Except DLErr String) : Option String :=
  match r with
  | .ok p => some p
  | .error _ => none

/-- The collection loop of `__call__` over an iterable of urls: each per-URL
future that raised is logged and mapped to `None`, each success to its
path; the loop itself never raises. -/
def callBatch (runUrl : String → Except DLErr String) (urls : List String) :
    String → Option (Option String) :=
  urls.foldl (fun paths url => dictInsert paths url (futureOutcome (runUrl url)))
    (fun _ => none)

inductive UrlsInput
  | single (s : String)
  | many (l : List String)

inductive CallResult
  | path (p : String)
  | mapping (m : String → Option (Option String))

/-- `ImageDownloader.__call__(urls, force)`: a bare string is forwarded
directly to `download_image` with no exception handling; an iterable goes
through the pooled batch loop. -/
def callDownloader (runUrl : String → Except DLErr String) :
    UrlsInput → Except DLErr CallResult
  | .single s => (runUrl s).map .path
  | .many l => .ok (.mapping (callBatch runUrl l))

/-! ### Proxy configuration -/

/-- The dynamic shapes the Python code accepts for `proxies`. -/
inductive PyProxies
  | pnone
  | pstr (s : String)
  | plist (l : List String)
  | pdict (d : List (String × String))
deriving DecidableEq

/-- The value of `self.proxies` after construction. -/
inductive ProxyState
  | pnone
  | pdict (d : List (String × String))
  | plist (l : List (List (String × String)))
deriving DecidableEq

/-- The per-request proxy record `{"http": proxy, "https": proxy}`. -/
def proxyRecord (p : String) : List (String × String) := [("http", p), ("https", p)]

/-- The proxies normalization in `imagedownloader.ImageDownloader.__init__`
(note: the source tests `isinstance(thumbs_size, list)` where the proxies
branch is selected, and iterating `None` raises `TypeError`). -/
def initProxies_imagedownloader (proxies : PyProxies) (thumbsSizeIsList : Bool) :
    Except String ProxyState :=
  match proxies with
  | .pstr _ => .error "AssertionError"
  | .pdict d => .ok (.pdict d)
  | .plist l => if thumbsSizeIsList then .ok (.plist (l.map proxyRecord)) else .ok .pnone
  | .pnone => if thumbsSizeIsList then .error "TypeError" else .ok .pnone

/-- `imgdl.ImageDownloader.resolve_proxies`: a string becomes a one-record
list, a non-empty list maps to records, `None` and the empty list resolve to
`None`, anything else raises `ValueError`. -/
def resolve_proxies (value : PyProxies) : Except String ProxyState :=
  match value with
  | .pstr s => .ok (.plist [proxyRecord s])
  | .plist l => if l.length > 0 then .ok (.plist (l.map proxyRecord)) else .error "ValueError"
  | .pnone => .ok .pnone
  | .pdict _ => .error "ValueError"

/-- `ImageDownloader.get_proxy` (both implementations): `random.choice` from
a list (the random draw is the oracle `k`, reduced modulo the length),
otherwise the stored value itself. -/
def get_proxy (st : ProxyState) (k : Nat) : Option (List (String × String)) :=
  match st with
  | .plist l => l.get? (k % l.length)
  | .pdict d => some d
  | .pnone => none

/-! ### Spec-side path layout, task wrapper and concrete test fixtures -/

/-- The original-image path layout exactly as the spec words it (§4.1). -/
def imagePath_spec (store_root url : String) : String :=
  store_root ++ "/" ++ hexdigest (sha1 (to_bytes url)) ++ ".jpg"

/-- The thumbnail path layout exactly as the spec words it (§4.1). -/
def thumbPath_spec (store_root url specName : String) : String :=
  store_root ++ "/thumbs/" ++ specName ++ "/" ++ hexdigest (sha1 (to_bytes url)) ++ ".jpg"

/-- `download_image` as the per-URL task outcome fed to the batch loop. -/
def runOne (fetchO : String → Except DLErr (List Nat))
    (decodeO : List Nat → Except DLErr PILImage) (writeOk : String → Bool)
    (cfg : DLConfig) (fs : Fs) (force : Bool) (url : String) : Except DLErr String :=
  (download_image fetchO decodeO writeOk cfg fs url force).2.2

/-- A 2×1 RGB test image. -/
def imgT : PILImage := ⟨some "JPEG", "RGB", 2, 1, [(10, 20, 30, 255), (40, 50, 60, 255)]⟩

/-- A 1×1 palette-mode test image. -/
def imgP : PILImage := ⟨some "GIF", "P", 1, 1, [(7, 8, 9, 255)]⟩

/-- A 500×300 RGB source image, as in the spec thumbnail scenario. -/
def imgWide : PILImage := ⟨some "JPEG", "RGB", 500, 300, List.replicate (500 * 300) (1, 2, 3, 255)⟩

/-- The empty filesystem. -/
def fsEmpty : Fs := fun _ => none

/-- The spec scenario's url list. -/
def urls3 : List String := ["http://x/a.png", "http://x/bad", "http://x/b.jpg"]

/-- A per-URL task outcome where exactly the second scenario url fails. -/
def run3 : String → Except DLErr String := fun u =>
  if u = "http://x/bad" then .error .fetchErr else .ok (file_path "imgs" u)

/-! ## Heap access lemmas -/

theorem hget_append_lt (h l : Heap) (r : Nat) (hr : r < h.length) :
    hget (h ++ l) r = hget h r := by
  simp [hget, List.getD_eq_getElem?_getD, List.getElem?_append, hr]

theorem hget_append_add (h L : Heap) (k : Nat) : hget (h ++ L) (h.length + k) = hget L k := by
  simp [hget, List.getD_eq_getElem?_getD, List.getElem?_append]

theorem hget_alloc_last (h : Heap) (x : PILImage) : hget (h ++ [x]) h.length = x := by
  simp [hget, List.getD_eq_getElem?_getD, List.getElem?_append]

theorem hset_append_last (h : Heap) (x y : PILImage) :
    hset (h ++ [x]) h.length y = h ++ [y] := by
  show (h ++ [x]).set h.length y = h ++ [y]
  rw [List.set_append_right _ _ (Nat.le_refl _)]
  simp

/-- Characterization of `convert_image` at a valid reference: the heap only
grows by fresh allocations, the returned reference holds the canonicalized
(and, with a size, thumbnailed copy of the) input image, and the returned
buffer is that image's JPEG encoding. -/
theorem convert_image_heap_char (h : Heap) (r : Nat) (hr : r < h.length)
    (size : Option (Nat × Nat)) :
    ∃ L : List PILImage,
      (convert_image h r size).1 = h ++ L ∧
      hget (convert_image h r size).1 (convert_image h r size).2.1 =
        (match size with
         | none => canonicalize_spec (hget h r)
         | some sz => pilThumbnail (canonicalize_spec (hget h r)) sz) ∧
      (convert_image h r size).2.2 =
        pilSaveJPEG
          (match size with
           | none => canonicalize_spec (hget h r)
           | some sz => pilThumbnail (canonicalize_spec (hget h r)) sz) := by
  by_cases h1 : (hget h r).format = some "PNG" ∧ (hget h r).mode = "RGBA"
  · have hcs : canonicalize_spec (hget h r) =
        pilConvert (pilPaste (pilNew "RGBA" (hget h r).width (hget h r).height
          (255, 255, 255, 255)) (hget h r) (hget h r)) "RGB" := by
      unfold canonicalize_spec
      rw [if_pos h1]
    rcases size with _ | sz
    · have e : convert_image h r none =
          (h ++ [pilPaste (pilNew "RGBA" (hget h r).width (hget h r).height
                   (255, 255, 255, 255)) (hget h r) (hget h r),
                 canonicalize_spec (hget h r)],
           h.length + 1, pilSaveJPEG (canonicalize_spec (hget h r))) := by
        rw [hcs]
        unfold convert_image
        simp only [halloc]
        rw [if_pos h1, hget_alloc_last, hget_append_lt h _ r hr, hset_append_last,
          hget_alloc_last, hget_alloc_last]
        simp [List.length_append]
      exact ⟨_, by rw [e], by rw [e, hget_append_add]; simp [hget], by rw [e]⟩
    · have e : convert_image h r (some sz) =
          (h ++ [pilPaste (pilNew "RGBA" (hget h r).width (hget h r).height
                   (255, 255, 255, 255)) (hget h r) (hget h r),
                 canonicalize_spec (hget h r),
                 pilThumbnail (canonicalize_spec (hget h r)) sz],
           h.length + 2, pilSaveJPEG (pilThumbnail (canonicalize_spec (hget h r)) sz)) := by
        rw [hcs]
        unfold convert_image
        simp only [halloc]
        rw [if_pos h1, hget_alloc_last, hget_append_lt h _ r hr, hset_append_last,
          hget_alloc_last, hget_alloc_last, hset_append_last, hget_alloc_last,
          hget_alloc_last]
        simp [List.length_append]
      exact ⟨_, by rw [e], by rw [e, hget_append_add]; simp [hget], by rw [e]⟩
  · by_cases h2 : (hget h r).mode = "P"
    · have hcs : canonicalize_spec (hget h r) =
          pilConvert (pilPaste (pilNew "RGBA" (pilConvert (hget h r) "RGBA").width
            (pilConvert (hget h r) "RGBA").height (255, 255, 255, 255))
            (pilConvert (hget h r) "RGBA") (pilConvert (hget h r) "RGBA")) "RGB" := by
        unfold canonicalize_spec
        rw [if_neg h1, if_pos h2]
      rcases size with _ | sz
      · have e : convert_image h r none =
            (h ++ [pilConvert (hget h r) "RGBA",
                   pilPaste (pilNew "RGBA" (pilConvert (hget h r) "RGBA").width
                     (pilConvert (hget h r) "RGBA").height (255, 255, 255, 255))
                     (pilConvert (hget h r) "RGBA") (pilConvert (hget h r) "RGBA"),
                   canonicalize_spec (hget h r)],
             h.length + 2, pilSaveJPEG (canonicalize_spec (hget h r))) := by
          rw [hcs]
          unfold convert_image
          simp only [halloc]
          rw [if_neg h1, if_pos h2, hget_alloc_last, hget_alloc_last,
            hget_append_lt _ _ _ (by simp), hget_alloc_last, hset_append_last,
            hget_alloc_last, hget_alloc_last]
          simp [List.length_append]
        exact ⟨_, by rw [e], by rw [e, hget_append_add]; simp [hget], by rw [e]⟩
      · have e : convert_image h r (some sz) =
            (h ++ [pilConvert (hget h r) "RGBA",
                   pilPaste (pilNew "RGBA" (pilConvert (hget h r) "RGBA").width
                     (pilConvert (hget h r) "RGBA").height (255, 255, 255, 255))
                     (pilConvert (hget h r) "RGBA") (pilConvert (hget h r) "RGBA"),
                   canonicalize_spec (hget h r),
                   pilThumbnail (canonicalize_spec (hget h r)) sz],
             h.length + 3, pilSaveJPEG (pilThumbnail (canonicalize_spec (hget h r)) sz)) := by
          rw [hcs]
          unfold convert_image
          simp only [halloc]
          rw [if_neg h1, if_pos h2, hget_alloc_last, hget_alloc_last,
            hget_append_lt _ _ _ (by simp), hget_alloc_last, hset_append_last,
            hget_alloc_last, hget_alloc_last, hset_append_last, hget_alloc_last,
            hget_alloc_last]
          simp [List.length_append]
        exact ⟨_, by rw [e], by rw [e, hget_append_add]; simp [hget], by rw [e]⟩
    · by_cases h3 : (hget h r).mode = "RGB"
      · have hcs : canonicalize_spec (hget h r) = hget h r := by
          unfold canonicalize_spec
          rw [if_neg h1, if_neg h2, if_neg (by simpa using h3)]
        rcases size with _ | sz
        · have e : convert_image h r none = (h, r, pilSaveJPEG (hget h r)) := by
            unfold convert_image
            simp only [halloc]
            rw [if_neg h1, if_neg h2, if_neg (by simpa using h3)]
          exact ⟨[], by rw [e]; simp, by rw [e]; simp [hcs], by rw [e]; simp [hcs]⟩
        · have e : convert_image h r (some sz) =
              (h ++ [pilThumbnail (hget h r) sz], h.length,
               pilSaveJPEG (pilThumbnail (hget h r) sz)) := by
            unfold convert_image
            simp only [halloc]
            rw [if_neg h1, if_neg h2, if_neg (by simpa using h3)]
            simp only [hget_alloc_last, hset_append_last]
          exact ⟨_, by rw [e], by rw [e, hget_alloc_last, hcs], by rw [e]; simp [hcs]⟩
      · have hcs : canonicalize_spec (hget h r) = pilConvert (hget h r) "RGB" := by
          unfold canonicalize_spec
          rw [if_neg h1, if_neg h2, if_pos (by simpa using h3)]
        rcases size with _ | sz
        · have e : convert_image h r none =
              (h ++ [canonicalize_spec (hget h r)], h.length,
               pilSaveJPEG (canonicalize_spec (hget h r))) := by
            rw [hcs]
            unfold convert_image
            simp only [halloc]
            rw [if_neg h1, if_neg h2, if_pos (by simpa using h3), hget_alloc_last]
          exact ⟨_, by rw [e], by rw [e, hget_alloc_last], by rw [e]⟩
        · have e : convert_image h r (some sz) =
              (h ++ [canonicalize_spec (hget h r),
                     pilThumbnail (canonicalize_spec (hget h r)) sz],
               h.length + 1, pilSaveJPEG (pilThumbnail (canonicalize_spec (hget h r)) sz)) := by
            rw [hcs]
            unfold convert_image
            simp only [halloc]
            rw [if_neg h1, if_neg h2, if_pos (by simpa using h3), hget_alloc_last,
              hget_alloc_last, hset_append_last, hget_alloc_last]
            simp [List.length_append]
          exact ⟨_, by rw [e], by rw [e, hget_append_add]; simp [hget], by rw [e]⟩

theorem canonicalize_spec_mode (img : PILImage) : (canonicalize_spec img).mode = "RGB" := by
  unfold canonicalize_spec
  split_ifs with h1 h2 h3
  · simp [pilConvert]
  · simp [pilConvert]
  · simp [pilConvert]
  · simpa using h3

/-- C7: for every decodable input image, `convert_image` canonicalizes color
exactly as specified — a PNG-format RGBA image is composited onto opaque
white before dropping alpha, a palette image is expanded to RGBA and then
composited onto white, any other non-RGB mode is converted directly to RGB —
and the result is always encoded as JPEG in three-channel RGB with no alpha
(`canonicalize_spec` is the spec-worded canonicalization). -/
theorem C7_convert_image_canonicalizes (h : Heap) (r : Nat) (hr : r < h.length) :
    hget (convert_image h r none).1 (convert_image h r none).2.1 =
        canonicalize_spec (hget h r) ∧
      (convert_image h r none).2.2 = pilSaveJPEG (canonicalize_spec (hget h r)) ∧
      (convert_image h r none).2.2.fmt = "JPEG" ∧
      (convert_image h r none).2.2.mode = "RGB" := by
  obtain ⟨L, hheap, himg, hbuf⟩ := convert_image_heap_char h r hr none
  refine ⟨himg, hbuf, ?_, ?_⟩
  · rw [hbuf]
    rfl
  · rw [hbuf]
    show (canonicalize_spec (hget h r)).mode = "RGB"
    exact canonicalize_spec_mode _

/-- The shrink-to-fit size respects the bounding box, never upscales, is the
identity when the image already fits, and keeps the aspect ratio within one
rounding step. -/
theorem thumbnailSize_spec (w h x y : Nat) (hx : 1 ≤ x) (hy : 1 ≤ y)
    (hw : 1 ≤ w) (hh : 1 ≤ h) :
    (thumbnailSize w h x y).1 ≤ x ∧ (thumbnailSize w h x y).2 ≤ y ∧
      (thumbnailSize w h x y).1 ≤ w ∧ (thumbnailSize w h x y).2 ≤ h ∧
      (w ≤ x ∧ h ≤ y → thumbnailSize w h x y = (w, h)) ∧
      (thumbnailSize w h x y).2 * w ≤ (thumbnailSize w h x y).1 * h + w + h ∧
      (thumbnailSize w h x y).1 * h ≤ (thumbnailSize w h x y).2 * w + w + h := by
  unfold thumbnailSize
  split_ifs with h1 h2
  · dsimp only
    refine ⟨h1.1, h1.2, le_refl _, le_refl _, fun _ => rfl, ?_, ?_⟩
    · rw [Nat.mul_comm h w]
      omega
    · rw [Nat.mul_comm w h]
      omega
  · -- width-constrained branch: (x, max (h * x / w) 1)
    dsimp only
    have hxw : x ≤ w := by
      by_contra hcon
      push_neg at hcon
      have hyh : y < h := by
        rcases Nat.lt_or_ge y h with hlt | hge
        · exact hlt
        · exact absurd ⟨Nat.le_of_lt hcon, hge⟩ h1
      have c1 : y * w < y * x := Nat.mul_lt_mul_of_pos_left hcon hy
      have c2 : y * x < h * x := Nat.mul_lt_mul_of_pos_right hyh hx
      have c3 : y * w < x * h := by
        rw [Nat.mul_comm x h]
        exact Nat.lt_trans c1 c2
      exact Nat.lt_irrefl _ (Nat.lt_of_le_of_lt h2 c3)
    have hq1 : h * x / w ≤ y := by
      have step : h * x / w ≤ y * w / w := Nat.div_le_div_right (by
        rw [Nat.mul_comm h x]; exact h2)
      rwa [Nat.mul_div_left y hw] at step
    have hq2 : h * x / w ≤ h := by
      have step : h * x / w ≤ h * w / w := Nat.div_le_div_right
        (Nat.mul_le_mul_left h hxw)
      rwa [Nat.mul_div_left h hw] at step
    have hlow : h * x / w * w ≤ h * x := Nat.div_mul_le_self (h * x) w
    have hhigh : h * x < h * x / w * w + w := by
      have hdm := Nat.div_add_mod (h * x) w
      have hmod : h * x % w < w := Nat.mod_lt _ hw
      have hcomm : w * (h * x / w) = h * x / w * w := Nat.mul_comm _ _
      omega
    have hmaxle : max (h * x / w) 1 ≤ h * x / w + 1 :=
      max_le (Nat.le_succ _) (Nat.succ_le_succ (Nat.zero_le _))
    refine ⟨le_refl _, ?_, hxw, ?_, ?_, ?_, ?_⟩
    · exact max_le hq1 hy
    · exact max_le hq2 hh
    · intro hfit
      exact absurd hfit h1
    · calc max (h * x / w) 1 * w ≤ (h * x / w + 1) * w := Nat.mul_le_mul_right w hmaxle
        _ = h * x / w * w + w := by rw [Nat.succ_mul]
        _ ≤ h * x + w := Nat.add_le_add_right hlow w
        _ = x * h + w := by rw [Nat.mul_comm h x]
        _ ≤ x * h + w + h := Nat.le_add_right _ h
    · calc x * h = h * x := Nat.mul_comm x h
        _ ≤ h * x / w * w + w := Nat.le_of_lt hhigh
        _ ≤ max (h * x / w) 1 * w + w :=
            Nat.add_le_add_right (Nat.mul_le_mul_right w (le_max_left _ _)) w
        _ ≤ max (h * x / w) 1 * w + w + h := Nat.le_add_right _ h
  · -- height-constrained branch: (max (w * y / h) 1, y)
    dsimp only
    have hcon : y * w < x * h := Nat.lt_of_not_ge h2
    have hyh : y ≤ h := by
      by_contra hcon2
      push_neg at hcon2
      have hxl : x < w := by
        rcases Nat.lt_or_ge x w with hlt | hge
        · exact hlt
        · exact absurd ⟨hge, Nat.le_of_lt hcon2⟩ h1
      have c1 : x * h < w * h := Nat.mul_lt_mul_of_pos_right hxl hh
      have c2 : w * h < w * y := Nat.mul_lt_mul_of_pos_left hcon2 hw
      have c3 : x * h < y * w := by
        rw [Nat.mul_comm y w]
        exact Nat.lt_trans c1 c2
      exact Nat.lt_irrefl _ (Nat.lt_trans hcon c3)
    have hq1 : w * y / h ≤ x := by
      have step : w * y / h ≤ x * h / h := Nat.div_le_div_right (by
        rw [Nat.mul_comm w y]; exact Nat.le_of_lt hcon)
      rwa [Nat.mul_div_left x hh] at step
    have hq2 : w * y / h ≤ w := by
      have step : w * y / h ≤ w * h / h := Nat.div_le_div_right
        (Nat.mul_le_mul_left w hyh)
      rwa [Nat.mul_div_left w hh] at step
    have hlow : w * y / h * h ≤ w * y := Nat.div_mul_le_self (w * y) h
    have hhigh : w * y < w * y / h * h + h := by
      have hdm := Nat.div_add_mod (w * y) h
      have hmod : w * y % h < h := Nat.mod_lt _ hh
      have hcomm : h * (w * y / h) = w * y / h * h := Nat.mul_comm _ _
      omega
    have hmaxle : max (w * y / h) 1 ≤ w * y / h + 1 :=
      max_le (Nat.le_succ _) (Nat.succ_le_succ (Nat.zero_le _))
    refine ⟨?_, le_refl _, ?_, hyh, ?_, ?_, ?_⟩
    · exact max_le hq1 hx
    · exact max_le hq2 hw
    · intro hfit
      exact absurd hfit h1
    · calc y * w = w * y := Nat.mul_comm y w
        _ ≤ w * y / h * h + h := Nat.le_of_lt hhigh
        _ ≤ max (w * y / h) 1 * h + h :=
            Nat.add_le_add_right (Nat.mul_le_mul_right h (le_max_left _ _)) h
        _ ≤ max (w * y / h) 1 * h + h + w := Nat.le_add_right _ w
        _ = max (w * y / h) 1 * h + w + h := by omega
    · calc max (w * y / h) 1 * h ≤ (w * y / h + 1) * h := Nat.mul_le_mul_right h hmaxle
        _ = w * y / h * h + h := by rw [Nat.succ_mul]
        _ ≤ w * y + h := Nat.add_le_add_right hlow h
        _ = y * w + h := by rw [Nat.mul_comm w y]
        _ ≤ y * w + w + h := by omega

theorem pilConvert_width (img : PILImage) (m : String) :
    (pilConvert img m).width = img.width := by
  unfold pilConvert
  split_ifs <;> rfl

theorem pilConvert_height (img : PILImage) (m : String) :
    (pilConvert img m).height = img.height := by
  unfold pilConvert
  split_ifs <;> rfl

theorem pilPaste_width (bg img mask : PILImage) : (pilPaste bg img mask).width = bg.width := rfl

theorem pilPaste_height (bg img mask : PILImage) : (pilPaste bg img mask).height = bg.height :=
  rfl

theorem canonicalize_spec_width (img : PILImage) :
    (canonicalize_spec img).width = img.width := by
  unfold canonicalize_spec
  split_ifs <;> simp [pilConvert_width, pilPaste_width, pilConvert_height, pilNew]

theorem canonicalize_spec_height (img : PILImage) :
    (canonicalize_spec img).height = img.height := by
  unfold canonicalize_spec
  split_ifs <;> simp [pilConvert_height, pilPaste_height, pilNew]

theorem pilThumbnail_dims (img : PILImage) (sz : Nat × Nat) :
    (pilThumbnail img sz).width = (thumbnailSize img.width img.height sz.1 sz.2).1 ∧
      (pilThumbnail img sz).height = (thumbnailSize img.width img.height sz.1 sz.2).2 := by
  unfold pilThumbnail
  dsimp only
  split_ifs with hfit
  · exact ⟨hfit.1.symm, hfit.2.symm⟩
  · exact ⟨rfl, rfl⟩

/-- C8: `convert_image` with a size operates on a copy — the caller's image
object is unmodified after the call — and the produced thumbnail fits the
bounding box, is never upscaled (and is unchanged when the source already
fits), and keeps the source aspect ratio within rounding. -/
theorem C8_thumbnail_copy_and_bounds (h : Heap) (r bw bh : Nat)
    (hr : r < h.length) (hbw : 1 ≤ bw) (hbh : 1 ≤ bh)
    (hw : 1 ≤ (hget h r).width) (hh : 1 ≤ (hget h r).height) :
    hget (convert_image h r (some (bw, bh))).1 r = hget h r ∧
      (hget (convert_image h r (some (bw, bh))).1
          (convert_image h r (some (bw, bh))).2.1).width ≤ bw ∧
      (hget (convert_image h r (some (bw, bh))).1
          (convert_image h r (some (bw, bh))).2.1).height ≤ bh ∧
      (hget (convert_image h r (some (bw, bh))).1
          (convert_image h r (some (bw, bh))).2.1).width ≤ (hget h r).width ∧
      (hget (convert_image h r (some (bw, bh))).1
          (convert_image h r (some (bw, bh))).2.1).height ≤ (hget h r).height ∧
      ((hget h r).width ≤ bw ∧ (hget h r).height ≤ bh →
        (hget (convert_image h r (some (bw, bh))).1
            (convert_image h r (some (bw, bh))).2.1).width = (hget h r).width ∧
          (hget (convert_image h r (some (bw, bh))).1
              (convert_image h r (some (bw, bh))).2.1).height = (hget h r).height) ∧
      (hget (convert_image h r (some (bw, bh))).1
            (convert_image h r (some (bw, bh))).2.1).height * (hget h r).width ≤
        (hget (convert_image h r (some (bw, bh))).1
            (convert_image h r (some (bw, bh))).2.1).width * (hget h r).height +
          (hget h r).width + (hget h r).height ∧
      (hget (convert_image h r (some (bw, bh))).1
            (convert_image h r (some (bw, bh))).2.1).width * (hget h r).height ≤
        (hget (convert_image h r (some (bw, bh))).1
            (convert_image h r (some (bw, bh))).2.1).height * (hget h r).width +
          (hget h r).width + (hget h r).height := by
  obtain ⟨L, hheap, himg, hbuf⟩ := convert_image_heap_char h r hr (some (bw, bh))
  have hcaller : hget (convert_image h r (some (bw, bh))).1 r = hget h r := by
    rw [hheap]
    exact hget_append_lt h L r hr
  have himg' : hget (convert_image h r (some (bw, bh))).1
      (convert_image h r (some (bw, bh))).2.1 =
      pilThumbnail (canonicalize_spec (hget h r)) (bw, bh) := himg
  obtain ⟨hwd, hht⟩ := pilThumbnail_dims (canonicalize_spec (hget h r)) (bw, bh)
  rw [canonicalize_spec_width, canonicalize_spec_height] at hwd hht
  dsimp only at hwd hht
  obtain ⟨s1, s2, s3, s4, s5, s6, s7⟩ :=
    thumbnailSize_spec (hget h r).width (hget h r).height bw bh hbw hbh hw hh
  rw [himg', hwd, hht]
  refine ⟨hcaller, s1, s2, s3, s4, ?_, s6, s7⟩
  intro hfit
  rw [s5 hfit]
  exact ⟨rfl, rfl⟩

/-- Witness for C7 at a concrete palette-mode image. -/
theorem C7_witness :
    0 < ([imgP] : Heap).length ∧
      (hget (convert_image [imgP] 0 none).1 (convert_image [imgP] 0 none).2.1 =
          canonicalize_spec (hget [imgP] 0) ∧
        (convert_image [imgP] 0 none).2.2 = pilSaveJPEG (canonicalize_spec (hget [imgP] 0)) ∧
        (convert_image [imgP] 0 none).2.2.fmt = "JPEG" ∧
        (convert_image [imgP] 0 none).2.2.mode = "RGB") :=
  ⟨by decide, C7_convert_image_canonicalizes [imgP] 0 (by decide)⟩

/-- Witness for C8 at the spec scenario: a 500×300 source and a 100×100 box. -/
theorem C8_witness :
    (0 < ([imgWide] : Heap).length ∧ 1 ≤ (hget [imgWide] 0).width ∧
        1 ≤ (hget [imgWide] 0).height) ∧
      (hget (convert_image [imgWide] 0 (some (100, 100))).1 0 = hget [imgWide] 0 ∧
        (hget (convert_image [imgWide] 0 (some (100, 100))).1
            (convert_image [imgWide] 0 (some (100, 100))).2.1).width ≤ 100 ∧
        (hget (convert_image [imgWide] 0 (some (100, 100))).1
            (convert_image [imgWide] 0 (some (100, 100))).2.1).height ≤ 100 ∧
        (hget (convert_image [imgWide] 0 (some (100, 100))).1
            (convert_image [imgWide] 0 (some (100, 100))).2.1).width ≤ (hget [imgWide] 0).width ∧
        (hget (convert_image [imgWide] 0 (some (100, 100))).1
            (convert_image [imgWide] 0 (some (100, 100))).2.1).height ≤
          (hget [imgWide] 0).height ∧
        ((hget [imgWide] 0).width ≤ 100 ∧ (hget [imgWide] 0).height ≤ 100 →
          (hget (convert_image [imgWide] 0 (some (100, 100))).1
              (convert_image [imgWide] 0 (some (100, 100))).2.1).width =
              (hget [imgWide] 0).width ∧
            (hget (convert_image [imgWide] 0 (some (100, 100))).1
                (convert_image [imgWide] 0 (some (100, 100))).2.1).height =
              (hget [imgWide] 0).height) ∧
        (hget (convert_image [imgWide] 0 (some (100, 100))).1
              (convert_image [imgWide] 0 (some (100, 100))).2.1).height *
            (hget [imgWide] 0).width ≤
          (hget (convert_image [imgWide] 0 (some (100, 100))).1
                (convert_image [imgWide] 0 (some (100, 100))).2.1).width *
              (hget [imgWide] 0).height +
            (hget [imgWide] 0).width + (hget [imgWide] 0).height ∧
        (hget (convert_image [imgWide] 0 (some (100, 100))).1
              (convert_image [imgWide] 0 (some (100, 100))).2.1).width *
            (hget [imgWide] 0).height ≤
          (hget (convert_image [imgWide] 0 (some (100, 100))).1
              (convert_image [imgWide] 0 (some (100, 100))).2.1).height *
              (hget [imgWide] 0).width +
            (hget [imgWide] 0).width + (hget [imgWide] 0).height) :=
  ⟨⟨by decide, by decide, by decide⟩,
    C8_thumbnail_copy_and_bounds [imgWide] 0 100 100 (by decide) (by decide) (by decide)
      (by decide) (by decide)⟩

theorem path_ne_of_hex_ne (sp a b : String) (hne : a ≠ b) :
    sp ++ "/" ++ a ++ ".jpg" ≠ sp ++ "/" ++ b ++ ".jpg" := by
  intro heq
  apply hne
  have hd := congrArg String.data heq
  simp only [String.data_append] at hd
  exact String.ext (List.append_cancel_left (List.append_cancel_right hd))

/-- C6: `file_path` is exactly the spec's content-addressed layout —
`store_root/sha1(utf8(url)).jpg`, with thumbnails under
`store_root/thumbs/spec/sha1(url).jpg` — a pure function of its arguments,
and the URL string is not normalized: URLs differing only in case or only in
trailing whitespace hash to different paths. -/
theorem C6_path_resolver (sp url tid : String) :
    file_path sp url = imagePath_spec sp url ∧
      thumb_path sp url tid = thumbPath_spec sp url tid ∧
      file_path sp "http://Example.com/A.png" ≠ file_path sp "http://example.com/a.png" ∧
      file_path sp "http://example.com/a.png" ≠ file_path sp "http://example.com/a.png " := by
  refine ⟨rfl, rfl, ?_, ?_⟩
  · exact path_ne_of_hex_ne sp _ _ (by decide)
  · exact path_ne_of_hex_ne sp _ _ (by decide)

/-- C1: the claimed proxy-list normalization does not happen in
`imagedownloader`: with a proxy list and the documented dictionary shape of
`thumbs_size`, `__init__` silently sets `self.proxies = None` (its branch
tests `isinstance(thumbs_size, list)` instead of `isinstance(proxies,
list)`), so `get_proxy` yields no proxy; the sibling `imgdl` implementation
performs exactly the claimed normalization, confirming the intent. -/
theorem C1_proxy_normalization_bug :
    initProxies_imagedownloader (.plist ["http://proxy:8080"]) false = .ok .pnone ∧
      get_proxy .pnone 0 = none ∧
      resolve_proxies (.plist ["http://proxy:8080"]) =
        .ok (.plist [[("http", "http://proxy:8080"), ("https", "http://proxy:8080")]]) ∧
      get_proxy (.plist [[("http", "http://proxy:8080"), ("https", "http://proxy:8080")]]) 0 =
        some [("http", "http://proxy:8080"), ("https", "http://proxy:8080")] :=
  ⟨rfl, rfl, rfl, rfl⟩

theorem dictInsert_self (d : String → Option (Option String)) (k : String) (v : Option String) :
    dictInsert d k v k = some v := by
  simp [dictInsert]

theorem dictInsert_other (d : String → Option (Option String)) (k : String) (v : Option String)
    (q : String) (hq : q ≠ k) : dictInsert d k v q = d q := by
  simp [dictInsert, hq]

theorem callBatch_fold (runUrl : String → Except DLErr String) (urls : List String) :
    ∀ (acc : String → Option (Option String)) (u : String),
      (u ∈ urls ∨ acc u = some (futureOutcome (runUrl u))) →
      urls.foldl (fun paths url => dictInsert paths url (futureOutcome (runUrl url))) acc u =
        some (futureOutcome (runUrl u)) := by
  induction urls with
  | nil =>
    intro acc u h
    rcases h with h | h
    · cases h
    · exact h
  | cons v tl ih =>
    intro acc u h
    apply ih
    by_cases hq : u = v
    · right
      subst hq
      exact dictInsert_self acc u (futureOutcome (runUrl u))
    · rcases h with h | h
      · rcases List.mem_cons.mp h with h1 | h2
        · exact absurd h1 hq
        · left
          exact h2
      · right
        show dictInsert acc v (futureOutcome (runUrl v)) u = some (futureOutcome (runUrl u))
        rw [dictInsert_other _ _ _ _ hq]
        exact h

/-- C3: in the batch path of `__call__`, every per-URL failure is contained at
the task boundary: each input url is present in the returned mapping, a
failing url maps to the `None` absence marker, a succeeding url maps to its
stored path (each entry depending only on that url's own outcome), and the
batch function is total — it never re-raises a per-URL exception. -/
theorem C3_batch_error_containment (runUrl : String → Except DLErr String)
    (urls : List String) (u : String) (hu : u ∈ urls) :
    callBatch runUrl urls u = some (futureOutcome (runUrl u)) ∧
      (∀ e, runUrl u = .error e → callBatch runUrl urls u = some none) ∧
      (∀ p, runUrl u = .ok p → callBatch runUrl urls u = some (some p)) := by
  have base := callBatch_fold runUrl urls (fun _ => none) u (Or.inl hu)
  refine ⟨base, ?_, ?_⟩
  · intro e he
    rw [callBatch, base, he]
    rfl
  · intro p hp
    rw [callBatch, base, hp]
    rfl

/-- Witness for C3 at the spec scenario: the failing url maps to the absence
marker while a succeeding url maps to its stored path. -/
theorem C3_witness :
    ("http://x/bad" ∈ urls3 ∧ "http://x/a.png" ∈ urls3) ∧
      callBatch run3 urls3 "http://x/bad" = some none ∧
      callBatch run3 urls3 "http://x/a.png" = some (some (file_path "imgs" "http://x/a.png")) :=
  ⟨⟨by decide, by decide⟩,
    (C3_batch_error_containment run3 urls3 "http://x/bad" (by decide)).2.1 .fetchErr rfl,
    (C3_batch_error_containment run3 urls3 "http://x/a.png" (by decide)).2.2
      (file_path "imgs" "http://x/a.png") rfl⟩

/-- C10: a bare-string url bypasses the batch machinery: `__call__` returns
the stored path directly (not a mapping) and re-raises any per-URL error to
the caller, while an iterable input always yields a mapping and never
raises. -/
theorem C10_single_url_no_containment (runUrl : String → Except DLErr String)
    (s : String) (l : List String) :
    (∀ e, runUrl s = .error e → callDownloader runUrl (.single s) = .error e) ∧
      (∀ p, runUrl s = .ok p → callDownloader runUrl (.single s) = .ok (.path p)) ∧
      (∃ m, callDownloader runUrl (.many l) = .ok (.mapping m)) := by
  refine ⟨?_, ?_, ⟨_, rfl⟩⟩
  · intro e he
    simp [callDownloader, he, Except.map]
  · intro p hp
    simp [callDownloader, hp, Except.map]

/-- Witness for C10: with a failing fetch oracle, the single-string call on
the real per-URL task propagates the fetch error. -/
theorem C10_witness :
    runOne (fun _ => .error .fetchErr) (fun _ => .ok imgT) (fun _ => true)
        ⟨"imgs", []⟩ fsEmpty false "u" = .error .fetchErr ∧
      callDownloader
          (runOne (fun _ => .error .fetchErr) (fun _ => .ok imgT) (fun _ => true)
            ⟨"imgs", []⟩ fsEmpty false)
          (.single "u") = .error .fetchErr :=
  ⟨rfl,
    (C10_single_url_no_containment
        (runOne (fun _ => .error .fetchErr) (fun _ => .ok imgT) (fun _ => true)
          ⟨"imgs", []⟩ fsEmpty false)
        "u" []).1 .fetchErr rfl⟩

theorem thumb_path_ne_file_path (sp url tid : String) :
    thumb_path sp url tid ≠ file_path sp url := by
  intro h
  have hlen := congrArg String.length h
  rw [thumb_path, file_path] at hlen
  simp only [String.length_append] at hlen
  have e1 : ("/thumbs/" : String).length = 8 := rfl
  have e2 : ("/" : String).length = 1 := rfl
  have e3 : (".jpg" : String).length = 4 := rfl
  rw [e1, e2, e3] at hlen
  omega

theorem persistFile_ok_other (writeOk : String → Bool) (fs : Fs) (path : String)
    (buf : EncodedImage) (fs1 : Fs) (h : persistFile writeOk fs path buf = .ok fs1)
    (q : String) (hq : q ≠ path) : fs1 q = fs q := by
  unfold persistFile at h
  split_ifs at h
  cases h
  simp [fsWrite, hq]

theorem persistFile_ok_self (writeOk : String → Bool) (fs : Fs) (path : String)
    (buf : EncodedImage) (fs1 : Fs) (h : persistFile writeOk fs path buf = .ok fs1) :
    fs1 path = some (.enc buf) := by
  unfold persistFile at h
  split_ifs at h
  cases h
  simp [fsWrite]

/-- Every event emitted by the thumbnail loop is a `thumbTry` or a write to a
thumbnail path of this url. -/
theorem downloadThumbs_events (decodeO : List Nat → Except DLErr PILImage)
    (writeOk : String → Bool) (cfg : DLConfig) (url : String) (force : Bool) (path : String) :
    ∀ (ts : List (String × Nat × Nat)) (fs : Fs) (oi : Option PILImage),
      ∀ e ∈ (downloadThumbs decodeO writeOk cfg url force path ts fs oi).2.1,
        (∃ tid, e = .thumbTry tid) ∨
          (∃ tid, e = .write (thumb_path cfg.store_path url tid)) := by
  intro ts
  induction ts with
  | nil =>
    intro fs oi e he
    simp [downloadThumbs] at he
  | cons t rest ih =>
    intro fs oi e he
    obtain ⟨tid, tw, th⟩ := t
    simp only [downloadThumbs] at he
    split at he
    · split at he
      · simp at he
        exact Or.inl ⟨tid, he⟩
      · split at he
        · simp at he
          exact Or.inl ⟨tid, he⟩
        · simp only [List.mem_cons] at he
          rcases he with he | he | he
          · exact Or.inl ⟨tid, he⟩
          · exact Or.inr ⟨tid, he⟩
          · exact ih _ _ e he
    · exact ih _ _ e he

/-- The thumbnail loop leaves every non-thumbnail path untouched. -/
theorem downloadThumbs_fs_other (decodeO : List Nat → Except DLErr PILImage)
    (writeOk : String → Bool) (cfg : DLConfig) (url : String) (force : Bool) (path : String)
    (q : String) (hq : ∀ tid, thumb_path cfg.store_path url tid ≠ q) :
    ∀ (ts : List (String × Nat × Nat)) (fs : Fs) (oi : Option PILImage),
      (downloadThumbs decodeO writeOk cfg url force path ts fs oi).1 q = fs q := by
  intro ts
  induction ts with
  | nil =>
    intro fs oi
    simp [downloadThumbs]
  | cons t rest ih =>
    intro fs oi
    obtain ⟨tid, tw, th⟩ := t
    simp only [downloadThumbs]
    split
    · split
      · rfl
      · split
        · rfl
        · next fs1 hok =>
            rw [ih fs1 _]
            exact persistFile_ok_other _ _ _ _ _ hok q (fun h => (hq tid) h.symm)
    · exact ih fs oi

theorem download_image_skip (fetchO : String → Except DLErr (List Nat))
    (decodeO : List Nat → Except DLErr PILImage) (writeOk : String → Bool)
    (cfg : DLConfig) (fs : Fs) (url : String) (force : Bool)
    (hc : fsExists fs (file_path cfg.store_path url) = true) (hf : force = false) :
    download_image fetchO decodeO writeOk cfg fs url force =
      ((downloadThumbs decodeO writeOk cfg url force (file_path cfg.store_path url)
          cfg.thumbs_size fs none).1,
       (downloadThumbs decodeO writeOk cfg url force (file_path cfg.store_path url)
          cfg.thumbs_size fs none).2.1,
       (downloadThumbs decodeO writeOk cfg url force (file_path cfg.store_path url)
          cfg.thumbs_size fs none).2.2.map
         (fun _ => file_path cfg.store_path url)) := by
  unfold download_image
  rw [if_neg]
  simp [hc, hf]

theorem download_image_fetch_err (fetchO : String → Except DLErr (List Nat))
    (decodeO : List Nat → Except DLErr PILImage) (writeOk : String → Bool)
    (cfg : DLConfig) (fs : Fs) (url : String) (force : Bool) (e : DLErr)
    (hc : ¬ fsExists fs (file_path cfg.store_path url) = true ∨ force = true)
    (he : fetchO url = .error e) :
    download_image fetchO decodeO writeOk cfg fs url force = (fs, [.fetch url], .error e) := by
  unfold download_image
  rw [if_pos hc, he]

theorem download_image_decode_err (fetchO : String → Except DLErr (List Nat))
    (decodeO : List Nat → Except DLErr PILImage) (writeOk : String → Bool)
    (cfg : DLConfig) (fs : Fs) (url : String) (force : Bool) (bytes : List Nat) (e : DLErr)
    (hc : ¬ fsExists fs (file_path cfg.store_path url) = true ∨ force = true)
    (hb : fetchO url = .ok bytes) (he : decodeO bytes = .error e) :
    download_image fetchO decodeO writeOk cfg fs url force = (fs, [.fetch url], .error e) := by
  unfold download_image
  rw [if_pos hc, hb]
  dsimp only
  rw [he]

theorem download_image_persist_err (fetchO : String → Except DLErr (List Nat))
    (decodeO : List Nat → Except DLErr PILImage) (writeOk : String → Bool)
    (cfg : DLConfig) (fs : Fs) (url : String) (force : Bool) (bytes : List Nat) (i : PILImage)
    (hc : ¬ fsExists fs (file_path cfg.store_path url) = true ∨ force = true)
    (hb : fetchO url = .ok bytes) (hi : decodeO bytes = .ok i)
    (hw : writeOk (file_path cfg.store_path url) = false) :
    download_image fetchO decodeO writeOk cfg fs url force =
      (fs, [.fetch url], .error .persistErr) := by
  unfold download_image
  rw [if_pos hc, hb]
  dsimp only
  rw [hi]
  dsimp only
  simp [persistFile, hw]

theorem download_image_fetched (fetchO : String → Except DLErr (List Nat))
    (decodeO : List Nat → Except DLErr PILImage) (writeOk : String → Bool)
    (cfg : DLConfig) (fs : Fs) (url : String) (force : Bool) (bytes : List Nat) (i : PILImage)
    (hc : ¬ fsExists fs (file_path cfg.store_path url) = true ∨ force = true)
    (hb : fetchO url = .ok bytes) (hi : decodeO bytes = .ok i)
    (hw : writeOk (file_path cfg.store_path url) = true) :
    download_image fetchO decodeO writeOk cfg fs url force =
      ((downloadThumbs decodeO writeOk cfg url force (file_path cfg.store_path url)
          cfg.thumbs_size
          (fsWrite fs (file_path cfg.store_path url)
            (.enc (convertImagePure i none).2)) (some i)).1,
       .fetch url :: .write (file_path cfg.store_path url) :: .sleep ::
         (downloadThumbs decodeO writeOk cfg url force (file_path cfg.store_path url)
            cfg.thumbs_size
            (fsWrite fs (file_path cfg.store_path url)
              (.enc (convertImagePure i none).2)) (some i)).2.1,
       (downloadThumbs decodeO writeOk cfg url force (file_path cfg.store_path url)
          cfg.thumbs_size
          (fsWrite fs (file_path cfg.store_path url)
            (.enc (convertImagePure i none).2)) (some i)).2.2.map
         (fun _ => file_path cfg.store_path url)) := by
  unfold download_image
  rw [if_pos hc, hb]
  dsimp only
  rw [hi]
  dsimp only
  simp [persistFile, hw]

theorem downloadThumbs_no_fetch (decodeO : List Nat → Except DLErr PILImage)
    (writeOk : String → Bool) (cfg : DLConfig) (url : String) (force : Bool) (path : String)
    (ts : List (String × Nat × Nat)) (fs : Fs) (oi : Option PILImage) (u : String) :
    Ev.fetch u ∉ (downloadThumbs decodeO writeOk cfg url force path ts fs oi).2.1 := by
  intro hm
  rcases downloadThumbs_events decodeO writeOk cfg url force path ts fs oi _ hm with
    ⟨tid, he⟩ | ⟨tid, he⟩ <;> cases he

theorem downloadThumbs_no_sleep (decodeO : List Nat → Except DLErr PILImage)
    (writeOk : String → Bool) (cfg : DLConfig) (url : String) (force : Bool) (path : String)
    (ts : List (String × Nat × Nat)) (fs : Fs) (oi : Option PILImage) :
    Ev.sleep ∉ (downloadThumbs decodeO writeOk cfg url force path ts fs oi).2.1 := by
  intro hm
  rcases downloadThumbs_events decodeO writeOk cfg url force path ts fs oi _ hm with
    ⟨tid, he⟩ | ⟨tid, he⟩ <;> cases he

theorem downloadThumbs_no_write_orig (decodeO : List Nat → Except DLErr PILImage)
    (writeOk : String → Bool) (cfg : DLConfig) (url : String) (force : Bool) (path : String)
    (ts : List (String × Nat × Nat)) (fs : Fs) (oi : Option PILImage) :
    Ev.write (file_path cfg.store_path url) ∉
      (downloadThumbs decodeO writeOk cfg url force path ts fs oi).2.1 := by
  intro hm
  rcases downloadThumbs_events decodeO writeOk cfg url force path ts fs oi _ hm with
    ⟨tid, he⟩ | ⟨tid, he⟩
  · cases he
  · injection he with he
    exact thumb_path_ne_file_path cfg.store_path url tid he.symm

/-- C5 (amended): the network fetch is performed if and only if the stored
path is missing or `force` is set, and the re-persist of the original then
follows exactly when the fetch-decode-write sequence succeeds (so with
`force` every URL is re-fetched, and re-persisted whenever the fetch
succeeds, even when its path exists); with `force` unset an existing path
causes the fetch to be skipped, the skip counts as success and the call
still returns the stored path.  The original claim's "fetch and re-persist
performed iff" fails when the fetch itself raises. -/
theorem C5_fetch_iff_missing_or_force (fetchO : String → Except DLErr (List Nat))
    (decodeO : List Nat → Except DLErr PILImage) (writeOk : String → Bool)
    (cfg : DLConfig) (fs : Fs) (url : String) (force : Bool) :
    (Ev.fetch url ∈ (download_image fetchO decodeO writeOk cfg fs url force).2.1 ↔
        (¬ fsExists fs (file_path cfg.store_path url) = true ∨ force = true)) ∧
      (Ev.write (file_path cfg.store_path url) ∈
          (download_image fetchO decodeO writeOk cfg fs url force).2.1 ↔
        ((¬ fsExists fs (file_path cfg.store_path url) = true ∨ force = true) ∧
          origStepOk fetchO decodeO writeOk url (file_path cfg.store_path url) = true)) ∧
      (fsExists fs (file_path cfg.store_path url) = true ∧ force = false →
        Ev.fetch url ∉ (download_image fetchO decodeO writeOk cfg fs url force).2.1 ∧
          (∀ p, (download_image fetchO decodeO writeOk cfg fs url force).2.2 = .ok p →
            p = file_path cfg.store_path url) ∧
          (cfg.thumbs_size = [] →
            (download_image fetchO decodeO writeOk cfg fs url force).2.2 =
              .ok (file_path cfg.store_path url))) := by
  by_cases hc : ¬ fsExists fs (file_path cfg.store_path url) = true ∨ force = true
  · have hctr : ¬ (fsExists fs (file_path cfg.store_path url) = true ∧ force = false) := by
      rintro ⟨hex, hf⟩
      rcases hc with h | h
      · exact h hex
      · rw [hf] at h
        cases h
    cases hb : fetchO url with
    | error e =>
      rw [download_image_fetch_err fetchO decodeO writeOk cfg fs url force e hc hb]
      refine ⟨iff_of_true (by simp) hc, ?_, fun hpre => absurd hpre hctr⟩
      simp [origStepOk, hb]
    | ok bytes =>
      cases hi : decodeO bytes with
      | error e =>
        rw [download_image_decode_err fetchO decodeO writeOk cfg fs url force bytes e hc hb hi]
        refine ⟨iff_of_true (by simp) hc, ?_, fun hpre => absurd hpre hctr⟩
        simp [origStepOk, hb, hi]
      | ok i =>
        cases hw : writeOk (file_path cfg.store_path url) with
        | false =>
          rw [download_image_persist_err fetchO decodeO writeOk cfg fs url force bytes i
            hc hb hi hw]
          refine ⟨iff_of_true (by simp) hc, ?_, fun hpre => absurd hpre hctr⟩
          simp [origStepOk, hb, hi, hw]
        | true =>
          rw [download_image_fetched fetchO decodeO writeOk cfg fs url force bytes i
            hc hb hi hw]
          refine ⟨iff_of_true (by simp) hc, ?_, fun hpre => absurd hpre hctr⟩
          constructor
          · intro _
            exact ⟨hc, by simp [origStepOk, hb, hi, hw]⟩
          · intro _
            simp
  · push_neg at hc
    obtain ⟨hex, hft⟩ := hc
    have hf : force = false := by
      cases force
      · rfl
      · exact absurd rfl hft
    rw [download_image_skip fetchO decodeO writeOk cfg fs url force hex hf]
    refine ⟨?_, ?_, ?_⟩
    · constructor
      · intro hm
        exact absurd hm (downloadThumbs_no_fetch _ _ _ _ _ _ _ _ _ _)
      · rintro (h | h)
        · exact absurd hex h
        · rw [h] at hf
          cases hf
    · constructor
      · intro hm
        exact absurd hm (downloadThumbs_no_write_orig _ _ _ _ _ _ _ _ _)
      · rintro ⟨h | h, _⟩
        · exact absurd hex h
        · rw [h] at hf
          cases hf
    · intro _
      refine ⟨downloadThumbs_no_fetch _ _ _ _ _ _ _ _ _ _, ?_, ?_⟩
      · intro p hp
        cases hdt : (downloadThumbs decodeO writeOk cfg url force
            (file_path cfg.store_path url) cfg.thumbs_size fs none).2.2 with
        | error e =>
          rw [hdt] at hp
          cases hp
        | ok u0 =>
          rw [hdt] at hp
          cases hp
          rfl
      · intro hts
        rw [hts]
        simp [downloadThumbs, Except.map]

/-- C9 (amended): the rate-limiting sleep happens exactly when an actual
network fetch was performed and the subsequent decode and persist succeeded
(it is placed after that sequence); in particular a cache-hit skip never
sleeps.  The original claim's "sleep iff fetch" fails when the fetch is
performed but decoding or persisting raises. -/
theorem C9_sleep_amended (fetchO : String → Except DLErr (List Nat))
    (decodeO : List Nat → Except DLErr PILImage) (writeOk : String → Bool)
    (cfg : DLConfig) (fs : Fs) (url : String) (force : Bool) :
    (Ev.sleep ∈ (download_image fetchO decodeO writeOk cfg fs url force).2.1 ↔
        ((¬ fsExists fs (file_path cfg.store_path url) = true ∨ force = true) ∧
          origStepOk fetchO decodeO writeOk url (file_path cfg.store_path url) = true)) ∧
      (fsExists fs (file_path cfg.store_path url) = true ∧ force = false →
        Ev.sleep ∉ (download_image fetchO decodeO writeOk cfg fs url force).2.1) := by
  by_cases hc : ¬ fsExists fs (file_path cfg.store_path url) = true ∨ force = true
  · have hctr : ¬ (fsExists fs (file_path cfg.store_path url) = true ∧ force = false) := by
      rintro ⟨hex, hf⟩
      rcases hc with h | h
      · exact h hex
      · rw [hf] at h
        cases h
    cases hb : fetchO url with
    | error e =>
      rw [download_image_fetch_err fetchO decodeO writeOk cfg fs url force e hc hb]
      exact ⟨by simp [origStepOk, hb], fun hpre => absurd hpre hctr⟩
    | ok bytes =>
      cases hi : decodeO bytes with
      | error e =>
        rw [download_image_decode_err fetchO decodeO writeOk cfg fs url force bytes e hc hb hi]
        exact ⟨by simp [origStepOk, hb, hi], fun hpre => absurd hpre hctr⟩
      | ok i =>
        cases hw : writeOk (file_path cfg.store_path url) with
        | false =>
          rw [download_image_persist_err fetchO decodeO writeOk cfg fs url force bytes i
            hc hb hi hw]
          exact ⟨by simp [origStepOk, hb, hi, hw], fun hpre => absurd hpre hctr⟩
        | true =>
          rw [download_image_fetched fetchO decodeO writeOk cfg fs url force bytes i
            hc hb hi hw]
          refine ⟨iff_of_true (by simp) ⟨hc, by simp [origStepOk, hb, hi, hw]⟩,
            fun hpre => absurd hpre hctr⟩
  · push_neg at hc
    obtain ⟨hex, hft⟩ := hc
    have hf : force = false := by
      cases force
      · rfl
      · exact absurd rfl hft
    rw [download_image_skip fetchO decodeO writeOk cfg fs url force hex hf]
    constructor
    · constructor
      · intro hm
        exact absurd hm (downloadThumbs_no_sleep _ _ _ _ _ _ _ _ _)
      · rintro ⟨h | h, _⟩
        · exact absurd hex h
        · rw [h] at hf
          cases hf
    · intro _
      exact downloadThumbs_no_sleep _ _ _ _ _ _ _ _ _

/-- C9 counterexample to the claim as stated: the fetch is performed but the
decode raises, so no sleep is executed although an actual network fetch
happened — "sleep iff fetch" is violated on the decode-failure path. -/
theorem C9_counterexample :
    Ev.fetch "u" ∈ (download_image (fun _ => .ok [0]) (fun _ => .error .decodeErr)
        (fun _ => true) ⟨"s", []⟩ fsEmpty "u" false).2.1 ∧
      Ev.sleep ∉ (download_image (fun _ => .ok [0]) (fun _ => .error .decodeErr)
        (fun _ => true) ⟨"s", []⟩ fsEmpty "u" false).2.1 := by
  constructor
  · decide
  · decide

/-- Witness for C9's amended statement: a successful fetch-decode-persist
run does sleep. -/
theorem C9_witness :
    Ev.sleep ∈ (download_image (fun _ => .ok [0]) (fun _ => .ok imgT) (fun _ => true)
        ⟨"s", []⟩ fsEmpty "u" false).2.1 :=
  (C9_sleep_amended (fun _ => .ok [0]) (fun _ => .ok imgT) (fun _ => true) ⟨"s", []⟩
      fsEmpty "u" false).1.mpr ⟨Or.inl (by decide), by decide⟩

/-- C5 counterexample to the claim as stated: with `force` set and the file
already stored, the condition of the claimed "fetch and re-persist" holds
and the fetch is performed, but the fetch raises, so no re-persist of the
original happens. -/
theorem C5_counterexample :
    Ev.fetch "u" ∈ (download_image (fun _ => .error .fetchErr) (fun _ => .ok imgT)
        (fun _ => true) ⟨"s", []⟩
        (fsWrite fsEmpty (file_path "s" "u") (.enc (convertImagePure imgT none).2)) "u"
        true).2.1 ∧
      Ev.write (file_path "s" "u") ∉ (download_image (fun _ => .error .fetchErr)
        (fun _ => .ok imgT) (fun _ => true) ⟨"s", []⟩
        (fsWrite fsEmpty (file_path "s" "u") (.enc (convertImagePure imgT none).2)) "u"
        true).2.1 ∧
      fsExists (fsWrite fsEmpty (file_path "s" "u") (.enc (convertImagePure imgT none).2))
        (file_path "s" "u") = true := by
  refine ⟨by decide, by decide, by decide⟩

/-- Witness for C5: on an empty store the fetch happens; on a store already
holding the file (no force, no thumbs) the fetch is skipped and the stored
path is still returned. -/
theorem C5_witness :
    Ev.fetch "u" ∈ (download_image (fun _ => .ok [0]) (fun _ => .ok imgT) (fun _ => true)
        ⟨"s", []⟩ fsEmpty "u" false).2.1 ∧
      (download_image (fun _ => .ok [0]) (fun _ => .ok imgT) (fun _ => true) ⟨"s", []⟩
          (fsWrite fsEmpty (file_path "s" "u") (.enc (convertImagePure imgT none).2)) "u"
          false).2.2 = .ok (file_path "s" "u") :=
  ⟨(C5_fetch_iff_missing_or_force (fun _ => .ok [0]) (fun _ => .ok imgT) (fun _ => true)
        ⟨"s", []⟩ fsEmpty "u" false).1.mpr (Or.inl (by decide)),
    ((C5_fetch_iff_missing_or_force (fun _ => .ok [0]) (fun _ => .ok imgT) (fun _ => true)
          ⟨"s", []⟩
          (fsWrite fsEmpty (file_path "s" "u") (.enc (convertImagePure imgT none).2)) "u"
          false).2.2 ⟨by decide, rfl⟩).2.2 rfl⟩

/-- C4: nothing is written to `imagePath(url)` until the whole
fetch-decode-encode pipeline has succeeded in memory: on a fetch, decode or
persist-refusal failure the filesystem is completely unchanged (so an
existing file keeps its previous contents, also under `force`), on success
the file holds exactly the fully encoded buffer, and a cache-hit run leaves
the original file untouched. -/
theorem C4_persist_only_after_encode (fetchO : String → Except DLErr (List Nat))
    (decodeO : List Nat → Except DLErr PILImage) (writeOk : String → Bool)
    (cfg : DLConfig) (fs : Fs) (url : String) (force : Bool) :
    ((¬ fsExists fs (file_path cfg.store_path url) = true ∨ force = true) →
        (∀ e, fetchO url = .error e →
          (download_image fetchO decodeO writeOk cfg fs url force).1 = fs) ∧
          (∀ bytes e, fetchO url = .ok bytes → decodeO bytes = .error e →
            (download_image fetchO decodeO writeOk cfg fs url force).1 = fs) ∧
          (∀ bytes i, fetchO url = .ok bytes → decodeO bytes = .ok i →
            writeOk (file_path cfg.store_path url) = false →
            (download_image fetchO decodeO writeOk cfg fs url force).1 = fs) ∧
          (∀ bytes i, fetchO url = .ok bytes → decodeO bytes = .ok i →
            writeOk (file_path cfg.store_path url) = true →
            (download_image fetchO decodeO writeOk cfg fs url force).1
                (file_path cfg.store_path url) =
              some (.enc (convertImagePure i none).2))) ∧
      (fsExists fs (file_path cfg.store_path url) = true ∧ force = false →
        (download_image fetchO decodeO writeOk cfg fs url force).1
            (file_path cfg.store_path url) =
          fs (file_path cfg.store_path url)) := by
  constructor
  · intro hc
    refine ⟨?_, ?_, ?_, ?_⟩
    · intro e he
      rw [download_image_fetch_err fetchO decodeO writeOk cfg fs url force e hc he]
    · intro bytes e hb he
      rw [download_image_decode_err fetchO decodeO writeOk cfg fs url force bytes e hc hb he]
    · intro bytes i hb hi hw
      rw [download_image_persist_err fetchO decodeO writeOk cfg fs url force bytes i
        hc hb hi hw]
    · intro bytes i hb hi hw
      rw [download_image_fetched fetchO decodeO writeOk cfg fs url force bytes i hc hb hi hw]
      have hpres := downloadThumbs_fs_other decodeO writeOk cfg url force
        (file_path cfg.store_path url) (file_path cfg.store_path url)
        (fun tid => thumb_path_ne_file_path cfg.store_path url tid) cfg.thumbs_size
        (fsWrite fs (file_path cfg.store_path url)
          (.enc (convertImagePure i none).2)) (some i)
      rw [hpres]
      simp [fsWrite]
  · rintro ⟨hex, hf⟩
    have hf' : force = false := hf
    rw [download_image_skip fetchO decodeO writeOk cfg fs url force hex hf']
    exact downloadThumbs_fs_other decodeO writeOk cfg url force
      (file_path cfg.store_path url) (file_path cfg.store_path url)
      (fun tid => thumb_path_ne_file_path cfg.store_path url tid) cfg.thumbs_size fs none

/-- Witness for C4: a decode failure leaves the filesystem untouched, and a
successful run stores exactly the encoded buffer. -/
theorem C4_witness :
    (download_image (fun _ => .ok [0]) (fun _ => .error .decodeErr) (fun _ => true)
        ⟨"s", []⟩ fsEmpty "u" false).1 = fsEmpty ∧
      (download_image (fun _ => .ok [0]) (fun _ => .ok imgT) (fun _ => true)
          ⟨"s", []⟩ fsEmpty "u" false).1 (file_path "s" "u") =
        some (.enc (convertImagePure imgT none).2) :=
  ⟨((C4_persist_only_after_encode (fun _ => .ok [0]) (fun _ => .error .decodeErr)
        (fun _ => true) ⟨"s", []⟩ fsEmpty "u" false).1 (Or.inl (by decide))).2.1
      [0] .decodeErr rfl rfl,
    ((C4_persist_only_after_encode (fun _ => .ok [0]) (fun _ => .ok imgT)
        (fun _ => true) ⟨"s", []⟩ fsEmpty "u" false).1 (Or.inl (by decide))).2.2.2
      [0] imgT rfl rfl (by decide)⟩

/-- C2 (amended): the thumbnail loop has no per-spec error containment — a
failure while producing one thumbnail spec aborts the loop, the remaining
specs are not attempted (the trace stops at the failing spec) and the error
propagates for that URL; the filesystem is left as it was before the
failing spec. -/
theorem C2_thumbnail_failure_aborts_rest (decodeO : List Nat → Except DLErr PILImage)
    (writeOk : String → Bool) (cfg : DLConfig) (url : String) (force : Bool) (path : String)
    (tid : String) (tw th : Nat) (rest : List (String × Nat × Nat)) (fs : Fs) (i : PILImage)
    (hdue : ¬ fsExists fs (thumb_path cfg.store_path url tid) = true ∨ force = true)
    (hfail : writeOk (thumb_path cfg.store_path url tid) = false) :
    (downloadThumbs decodeO writeOk cfg url force path ((tid, tw, th) :: rest) fs
          (some i)).2.2 = .error .persistErr ∧
      (downloadThumbs decodeO writeOk cfg url force path ((tid, tw, th) :: rest) fs
          (some i)).2.1 = [.thumbTry tid] ∧
      (downloadThumbs decodeO writeOk cfg url force path ((tid, tw, th) :: rest) fs
          (some i)).1 = fs := by
  simp only [downloadThumbs]
  rw [if_pos hdue]
  simp [persistFile, hfail]

/-- C2 counterexample to the claim as stated: the original succeeds, spec
"a" fails to persist, and spec "b" is never attempted — one thumbnail
failure does prevent the remaining specs. -/
theorem C2_counterexample :
    (download_image (fun _ => .ok [0]) (fun _ => .ok imgT)
          (fun p => p = file_path "s" "u") ⟨"s", [("a", 5, 5), ("b", 5, 5)]⟩ fsEmpty "u"
          false).2.1 =
        [.fetch "u", .write (file_path "s" "u"), .sleep, .thumbTry "a"] ∧
      (download_image (fun _ => .ok [0]) (fun _ => .ok imgT)
          (fun p => p = file_path "s" "u") ⟨"s", [("a", 5, 5), ("b", 5, 5)]⟩ fsEmpty "u"
          false).2.2 = .error .persistErr ∧
      Ev.thumbTry "b" ∉
        [Ev.fetch "u", Ev.write (file_path "s" "u"), Ev.sleep, Ev.thumbTry "a"] := by
  refine ⟨by decide, by decide, by decide⟩

/-- Witness for the amended C2 statement at a concrete failing spec. -/
theorem C2_witness :
    (downloadThumbs (fun _ => .ok imgT) (fun _ => false) ⟨"s", [("a", 5, 5)]⟩ "u" false
          (file_path "s" "u") [("a", 5, 5), ("b", 5, 5)] fsEmpty (some imgT)).2.2 =
        .error .persistErr ∧
      (downloadThumbs (fun _ => .ok imgT) (fun _ => false) ⟨"s", [("a", 5, 5)]⟩ "u" false
          (file_path "s" "u") [("a", 5, 5), ("b", 5, 5)] fsEmpty (some imgT)).2.1 =
        [.thumbTry "a"] ∧
      (downloadThumbs (fun _ => .ok imgT) (fun _ => false) ⟨"s", [("a", 5, 5)]⟩ "u" false
          (file_path "s" "u") [("a", 5, 5), ("b", 5, 5)] fsEmpty (some imgT)).1 = fsEmpty :=
  C2_thumbnail_failure_aborts_rest (fun _ => .ok imgT) (fun _ => false)
    ⟨"s", [("a", 5, 5)]⟩ "u" false (file_path "s" "u") "a" 5 5 [("b", 5, 5)] fsEmpty imgT
    (Or.inl (by decide)) rfl
